import Mathlib

/-!
Verification of the DAT-FECHTER pool query pipeline (`src/api/server.js`):
parameter validation, pool filtering, pagination, and response formatting
for the `GET /v1/evm/pools` endpoint, shallowly embedded in Lean.

JavaScript-specific behaviours (string truthiness, `||` fallbacks on falsy
values, `parseInt`, `Array.prototype.slice` clamping) are modelled by small
helper functions prefixed with `js`.
-/

namespace DexApi

/-- Truthiness of a JS value that is either `undefined` (`none`) or a string:
the empty string is falsy. -/
def jsTruthy : Option String → Bool
  | none => false
  | some s => s != ""

/-- Embedding of the JS expression `v || d` where `v` is `undefined` or a
string: falls back to `d` when `v` is `undefined` or the empty string. -/
def jsStrOr (v : Option String) (d : String) : String :=
  match v with
  | some s => if s = "" then d else s
  | none => d

/-- Embedding of the JS expression `v || null` for a nullable string `v`. -/
def jsOrNull (v : Option String) : Option String :=
  if jsTruthy v then v else none

/-- Embedding of the JS expression `v || d` where `v` is `undefined` or a
non-negative number: falls back to `d` when `v` is `undefined` or `0`. -/
def jsNatOr (v : Option Nat) (d : Nat) : Nat :=
  match v with
  | some n => if n = 0 then d else n
  | none => d

/-- Embedding of the JS expression `v || d` where `v` is `NaN` (`none`) or an
integer: falls back to `d` when `v` is `NaN` or `0`. -/
def jsNumOr (v : Option Int) (d : Int) : Int :=
  match v with
  | some n => if n = 0 then d else n
  | none => d

/-- Numeric value of a character as a digit in bases up to 36, as JS
`parseInt` accepts them (`0`-`9`, `a`-`z`, `A`-`Z`). -/
def charVal (c : Char) : Option Nat :=
  if '0' ≤ c ∧ c ≤ '9' then some (c.toNat - 48)
  else if 'a' ≤ c ∧ c ≤ 'z' then some (c.toNat - 87)
  else if 'A' ≤ c ∧ c ≤ 'Z' then some (c.toNat - 55)
  else none

/-- Whether `c` is a valid digit for the given radix. -/
def isRadixDigit (base : Nat) (c : Char) : Bool :=
  match charVal c with
  | some v => decide (v < base)
  | none => false

/-- Value of a digit string under the given radix. -/
def digitsVal (base : Nat) (ds : List Char) : Nat :=
  ds.foldl (fun acc c => acc * base + (charVal c).getD 0) 0

/-- Whitespace characters skipped by JS `parseInt` before the numeral. -/
def isJsSpace (c : Char) : Bool :=
  c == ' ' || c == '\t' || c == '\n' || c == '\r' || c == '\x0b' || c == '\x0c'

/-- Embedding of JS `parseInt(s)` (radix argument omitted): skip leading
whitespace, read an optional sign, switch to hexadecimal on a `0x`/`0X`
prefix, then read the longest digit prefix; `NaN` (here `none`) when no
digit is read. -/
def jsParseInt (s : String) : Option Int :=
  let cs := s.data.dropWhile isJsSpace
  let signRest : Int × List Char :=
    match cs with
    | '-' :: r => (-1, r)
    | '+' :: r => (1, r)
    | r => (1, r)
  let baseRest : Nat × List Char :=
    match signRest.2 with
    | '0' :: 'x' :: r => (16, r)
    | '0' :: 'X' :: r => (16, r)
    | r => (10, r)
  let ds := baseRest.2.takeWhile (isRadixDigit baseRest.1)
  if ds.isEmpty then none
  else some (signRest.1 * (digitsVal baseRest.1 ds : Int))

/-- Embedding of JS `Array.prototype.slice(start, stop)`: negative indices
count from the end, and both indices are clamped into `[0, length]`. -/
def jsSlice {α : Type} (l : List α) (start stop : Int) : List α :=
  let len : Int := l.length
  let s : Int := if start < 0 then max (len + start) 0 else min start len
  let e : Int := if stop < 0 then max (len + stop) 0 else min stop len
  (l.drop s.toNat).take (e - s).toNat

/-- Character for a single decimal digit. -/
def digitChar (d : Nat) : Char := Char.ofNat (48 + d)

/-- Accumulator loop producing the decimal digits of `n` (most significant
first) in front of `acc`; `fuel` bounds the recursion. -/
def decDigitsAux : Nat → Nat → List Char → List Char
  | 0, _, acc => acc
  | fuel + 1, n, acc =>
    if n < 10 then digitChar n :: acc
    else decDigitsAux fuel (n / 10) (digitChar (n % 10) :: acc)

/-- Embedding of JS `BigInt.prototype.toString()`: the decimal representation
of a non-negative integer. -/
def decRepr (n : Nat) : String := String.mk (decDigitsAux (n + 1) n [])

/-- Standard decimal value of a digit string, used to state that `decRepr`
preserves the integer exactly. -/
def parseDecimal (s : String) : Nat :=
  s.data.foldl (fun acc c => acc * 10 + (c.toNat - 48)) 0

/-- Token record supplied by the aggregation collaborator. -/
structure Token where
  address : String
  symbol : String
  decimals : Nat
deriving DecidableEq, Repr

/-- Pool record supplied by the aggregation collaborator. `id` and `factory`
are nullable; reserves and fee are arbitrary-precision non-negative integers
(JS `BigInt`). -/
structure Pool where
  id : Option String
  factory : Option String
  dexName : String
  chain : String
  token0 : String
  token1 : String
  reserve0 : Nat
  reserve1 : Nat
  fee : Nat
deriving DecidableEq, Repr

/-- Dataset snapshot returned by `fetchAllDexData`. -/
structure DexData where
  tokens : List Token
  pools : List Pool
deriving DecidableEq, Repr

/-- Raw query parameters of a request: each is `undefined` (`none`) or a
string. -/
structure Query where
  network : Option String := none
  factory : Option String := none
  pool : Option String := none
  input_token : Option String := none
  output_token : Option String := none
  protocol : Option String := none
  page : Option String := none
  limit : Option String := none
deriving DecidableEq, Repr

/-- Formatted token sub-object of a formatted pool. -/
structure FormattedToken where
  address : String
  symbol : String
  decimals : Nat
deriving DecidableEq, Repr

/-- Formatted pool as returned by the endpoint: reserves and fee are decimal
strings, never numbers. -/
structure FormattedPool where
  id : String
  factory : Option String
  token0 : FormattedToken
  token1 : FormattedToken
  reserve0 : String
  reserve1 : String
  fee : String
  protocol : String
  network : String
deriving DecidableEq, Repr

/-- Pagination metadata of a successful response. -/
structure Pagination where
  page : Int
  limit : Int
  total : Nat
  hasMore : Bool
deriving DecidableEq, Repr

/-- Body of a successful response. -/
structure PoolsResponse where
  data : List FormattedPool
  pagination : Pagination
deriving DecidableEq, Repr

/-- Result of the endpoint: a 400 error with a message, or a 200 body. -/
inductive HandlerResult where
  | badRequest (error : String) : HandlerResult
  | ok (resp : PoolsResponse) : HandlerResult
deriving DecidableEq, Repr

/-- Network ID mapping to chain names (`NETWORK_MAPPING`). -/
def NETWORK_MAPPING : String → Option String
  | "arbitrum-one" => some "Arbitrum"
  | "avalanche" => some "Avalanche"
  | "base" => some "Base"
  | "bsc" => some "BSC"
  | "mainnet" => some "Ethereum"
  | "optimism" => some "Optimism"
  | "polygon" => some "Polygon"
  | "unichain" => some "Unichain"
  | _ => none

/-- Keys of `NETWORK_MAPPING` in insertion order. -/
def NETWORK_KEYS : List String :=
  ["arbitrum-one", "avalanche", "base", "bsc", "mainnet", "optimism", "polygon", "unichain"]

/-- Protocol mapping (`PROTOCOL_MAPPING`). -/
def PROTOCOL_MAPPING : String → Option String
  | "uniswap_v2" => some "Uniswap V2"
  | "uniswap_v3" => some "Uniswap V3"
  | "uniswap_v4" => some "Uniswap V4"
  | _ => none

/-- Keys of `PROTOCOL_MAPPING` in insertion order. -/
def PROTOCOL_KEYS : List String := ["uniswap_v2", "uniswap_v3", "uniswap_v4"]

/-- Error message for an invalid `page` parameter. -/
def pageErrorMsg : String := "Invalid page parameter. Must be >= 1"

/-- Error message for an invalid `limit` parameter. -/
def limitErrorMsg : String := "Invalid limit parameter. Must be between 1 and 1000"

/-- Error message for an invalid `network` parameter. -/
def networkErrorMsg : String :=
  "Invalid network parameter. Accepted values: " ++ String.intercalate ", " NETWORK_KEYS

/-- Error message for an invalid `protocol` parameter. -/
def protocolErrorMsg : String :=
  "Invalid protocol parameter. Accepted values: " ++ String.intercalate ", " PROTOCOL_KEYS

/-- Embedding of `query.x.split(',').map(f => f.toLowerCase().trim())`. -/
def splitLowerTrim (s : String) : List String :=
  (s.splitOn ",").map (fun f => f.toLower.trim)

/-- Embedding of `filterPools(pools, query)`: applies the six conditional
filter passes in source order. -/
def filterPools (pools : List Pool) (query : Query) : List Pool :=
  let filtered := pools
  let filtered :=
    if jsTruthy query.network then
      match NETWORK_MAPPING (query.network.getD "") with
      | some chainName => filtered.filter (fun pool => pool.chain == chainName)
      | none => filtered
    else filtered
  let filtered :=
    if jsTruthy query.factory then
      let factories := splitLowerTrim (query.factory.getD "")
      filtered.filter (fun pool =>
        jsTruthy pool.factory && factories.contains ((pool.factory.getD "").toLower))
    else filtered
  let filtered :=
    if jsTruthy query.pool then
      let poolAddresses := splitLowerTrim (query.pool.getD "")
      filtered.filter (fun pool =>
        jsTruthy pool.id && poolAddresses.contains ((pool.id.getD "").toLower))
    else filtered
  let filtered :=
    if jsTruthy query.input_token then
      let inputTokens := splitLowerTrim (query.input_token.getD "")
      filtered.filter (fun pool =>
        inputTokens.contains pool.token0.toLower || inputTokens.contains pool.token1.toLower)
    else filtered
  let filtered :=
    if jsTruthy query.output_token then
      let outputTokens := splitLowerTrim (query.output_token.getD "")
      filtered.filter (fun pool =>
        outputTokens.contains pool.token0.toLower || outputTokens.contains pool.token1.toLower)
    else filtered
  let filtered :=
    if jsTruthy query.protocol then
      match PROTOCOL_MAPPING (query.protocol.getD "") with
      | some protocolName => filtered.filter (fun pool => pool.dexName == protocolName)
      | none => filtered
    else filtered
  filtered

/-- Embedding of `paginate(items, page, limit)`:
`items.slice((page-1)*limit, (page-1)*limit + limit)`. -/
def paginate {α : Type} (items : List α) (page limit : Int) : List α :=
  let startIndex := (page - 1) * limit
  let endIndex := startIndex + limit
  jsSlice items startIndex endIndex

/-- Embedding of `formatPoolResponse(pool, tokens)`; `tokens` is the
address-indexed token map. -/
def formatPoolResponse (pool : Pool) (tokens : String → Option Token) : FormattedPool :=
  { id := jsStrOr pool.id (pool.token0 ++ "-" ++ pool.token1)
    factory := jsOrNull pool.factory
    token0 :=
      { address := pool.token0
        symbol := jsStrOr ((tokens pool.token0).map Token.symbol) "UNKNOWN"
        decimals := jsNatOr ((tokens pool.token0).map Token.decimals) 18 }
    token1 :=
      { address := pool.token1
        symbol := jsStrOr ((tokens pool.token1).map Token.symbol) "UNKNOWN"
        decimals := jsNatOr ((tokens pool.token1).map Token.decimals) 18 }
    reserve0 := decRepr pool.reserve0
    reserve1 := decRepr pool.reserve1
    fee := decRepr pool.fee
    protocol := pool.dexName
    network := pool.chain }

/-- Embedding of the `tokenMap` construction: `tokens.forEach(token =>
tokenMap[token.address] = token)`, so later entries overwrite earlier ones. -/
def buildTokenMap (tokens : List Token) : String → Option Token :=
  tokens.foldl
    (fun tokenMap token => fun addr => if addr = token.address then some token else tokenMap addr)
    (fun _ => none)

/-- Value of `pageParam`: `req.query.page ? parseInt(req.query.page) : 1`. -/
def pageParamOf (query : Query) : Option Int :=
  if jsTruthy query.page then jsParseInt (query.page.getD "") else some 1

/-- Value of `limitParam`: `req.query.limit ? parseInt(req.query.limit) : 10`. -/
def limitParamOf (query : Query) : Option Int :=
  if jsTruthy query.limit then jsParseInt (query.limit.getD "") else some 10

/-- Condition of the `page` validation check:
`pageParam < 1 || isNaN(pageParam)`. -/
def pageBad (query : Query) : Bool :=
  match pageParamOf query with
  | none => true
  | some v => decide (v < 1)

/-- Condition of the `limit` validation check:
`limitParam < 1 || isNaN(limitParam)`. -/
def limitBad (query : Query) : Bool :=
  match limitParamOf query with
  | none => true
  | some v => decide (v < 1)

/-- Condition of the `network` validation check:
`req.query.network && !NETWORK_MAPPING[req.query.network]`. -/
def networkBad (query : Query) : Bool :=
  jsTruthy query.network && (NETWORK_MAPPING (query.network.getD "")).isNone

/-- Condition of the `protocol` validation check:
`req.query.protocol && !PROTOCOL_MAPPING[req.query.protocol]`. -/
def protocolBad (query : Query) : Bool :=
  jsTruthy query.protocol && (PROTOCOL_MAPPING (query.protocol.getD "")).isNone

/-- Embedding of the `GET /v1/evm/pools` handler body. The dataset obtained
from `fetchAllDexData` is passed as an argument; the validation checks run
before it is consulted, which the theorems express as independence of the
result from `dexData` on the error paths. -/
def getPools (query : Query) (dexData : DexData) : HandlerResult :=
  if pageBad query then .badRequest pageErrorMsg
  else if limitBad query then .badRequest limitErrorMsg
  else if networkBad query then .badRequest networkErrorMsg
  else if protocolBad query then .badRequest protocolErrorMsg
  else
    let page := jsNumOr (pageParamOf query) 1
    let limit := min (jsNumOr (limitParamOf query) 10) 1000
    let tokenMap := buildTokenMap dexData.tokens
    let filteredPools := filterPools dexData.pools query
    let paginatedPools := paginate filteredPools page limit
    let formattedPools := paginatedPools.map (fun pool => formatPoolResponse pool tokenMap)
    .ok
      { data := formattedPools
        pagination :=
          { page := page
            limit := limit
            total := filteredPools.length
            hasMore := decide (page * limit < (filteredPools.length : Int)) } }

/-- Predicate form of the network filter pass; constantly true when the
dimension is unsupplied or its value has no mapping entry. -/
def networkPred (query : Query) (pool : Pool) : Bool :=
  if jsTruthy query.network then
    match NETWORK_MAPPING (query.network.getD "") with
    | some chainName => pool.chain == chainName
    | none => true
  else true

/-- Predicate form of the factory filter pass. -/
def factoryPred (query : Query) (pool : Pool) : Bool :=
  if jsTruthy query.factory then
    jsTruthy pool.factory &&
      (splitLowerTrim (query.factory.getD "")).contains ((pool.factory.getD "").toLower)
  else true

/-- Predicate form of the pool-address filter pass. -/
def poolIdPred (query : Query) (pool : Pool) : Bool :=
  if jsTruthy query.pool then
    jsTruthy pool.id &&
      (splitLowerTrim (query.pool.getD "")).contains ((pool.id.getD "").toLower)
  else true

/-- Predicate form of the input-token filter pass. -/
def inputTokenPred (query : Query) (pool : Pool) : Bool :=
  if jsTruthy query.input_token then
    (splitLowerTrim (query.input_token.getD "")).contains pool.token0.toLower ||
      (splitLowerTrim (query.input_token.getD "")).contains pool.token1.toLower
  else true

/-- Predicate form of the output-token filter pass. -/
def outputTokenPred (query : Query) (pool : Pool) : Bool :=
  if jsTruthy query.output_token then
    (splitLowerTrim (query.output_token.getD "")).contains pool.token0.toLower ||
      (splitLowerTrim (query.output_token.getD "")).contains pool.token1.toLower
  else true

/-- Predicate form of the protocol filter pass. -/
def protocolPred (query : Query) (pool : Pool) : Bool :=
  if jsTruthy query.protocol then
    match PROTOCOL_MAPPING (query.protocol.getD "") with
    | some protocolName => pool.dexName == protocolName
    | none => true
  else true

/-- The six filter dimensions of `filterPools`. -/
inductive FilterDim where
  | network : FilterDim
  | factory : FilterDim
  | poolId : FilterDim
  | inputToken : FilterDim
  | outputToken : FilterDim
  | protocol : FilterDim
deriving DecidableEq, Repr

/-- Predicate of one filter dimension under a query. -/
def dimPred (query : Query) : FilterDim → Pool → Bool
  | .network => networkPred query
  | .factory => factoryPred query
  | .poolId => poolIdPred query
  | .inputToken => inputTokenPred query
  | .outputToken => outputTokenPred query
  | .protocol => protocolPred query

/-- Query field feeding one filter dimension. -/
def dimField (query : Query) : FilterDim → Option String
  | .network => query.network
  | .factory => query.factory
  | .poolId => query.pool
  | .inputToken => query.input_token
  | .outputToken => query.output_token
  | .protocol => query.protocol

/-- The six dimensions in the order `filterPools` applies them. -/
def allDims : List FilterDim :=
  [.network, .factory, .poolId, .inputToken, .outputToken, .protocol]

/-- Application of the filter passes for a chosen sequence of dimensions. -/
def applyDims (query : Query) (ds : List FilterDim) (pools : List Pool) : List Pool :=
  ds.foldl (fun acc d => acc.filter (dimPred query d)) pools

/-- Disjunction of the four validation checks of the endpoint. -/
def validationFails (query : Query) : Bool :=
  pageBad query || limitBad query || networkBad query || protocolBad query

/-- Membership-based intersection of two lists, keeping the order of the
first. -/
def listInter (l₁ l₂ : List Pool) : List Pool :=
  l₁.filter (fun x => decide (x ∈ l₂))

theorem network_step (query : Query) (l : List Pool) :
    (if jsTruthy query.network then
      match NETWORK_MAPPING (query.network.getD "") with
      | some chainName => l.filter (fun pool => pool.chain == chainName)
      | none => l
    else l) = l.filter (networkPred query) := by
  unfold networkPred
  by_cases h : jsTruthy query.network
  · simp only [h, if_true]
    cases NETWORK_MAPPING (query.network.getD "") <;> simp [List.filter_true]
  · simp [h, List.filter_true]

theorem factory_step (query : Query) (l : List Pool) :
    (if jsTruthy query.factory then
      l.filter (fun pool =>
        jsTruthy pool.factory &&
          (splitLowerTrim (query.factory.getD "")).contains ((pool.factory.getD "").toLower))
    else l) = l.filter (factoryPred query) := by
  unfold factoryPred
  by_cases h : jsTruthy query.factory <;> simp [h, List.filter_true]

theorem poolId_step (query : Query) (l : List Pool) :
    (if jsTruthy query.pool then
      l.filter (fun pool =>
        jsTruthy pool.id &&
          (splitLowerTrim (query.pool.getD "")).contains ((pool.id.getD "").toLower))
    else l) = l.filter (poolIdPred query) := by
  unfold poolIdPred
  by_cases h : jsTruthy query.pool <;> simp [h, List.filter_true]

theorem inputToken_step (query : Query) (l : List Pool) :
    (if jsTruthy query.input_token then
      l.filter (fun pool =>
        (splitLowerTrim (query.input_token.getD "")).contains pool.token0.toLower ||
          (splitLowerTrim (query.input_token.getD "")).contains pool.token1.toLower)
    else l) = l.filter (inputTokenPred query) := by
  unfold inputTokenPred
  by_cases h : jsTruthy query.input_token <;> simp [h, List.filter_true]

theorem outputToken_step (query : Query) (l : List Pool) :
    (if jsTruthy query.output_token then
      l.filter (fun pool =>
        (splitLowerTrim (query.output_token.getD "")).contains pool.token0.toLower ||
          (splitLowerTrim (query.output_token.getD "")).contains pool.token1.toLower)
    else l) = l.filter (outputTokenPred query) := by
  unfold outputTokenPred
  by_cases h : jsTruthy query.output_token <;> simp [h, List.filter_true]

theorem protocol_step (query : Query) (l : List Pool) :
    (if jsTruthy query.protocol then
      match PROTOCOL_MAPPING (query.protocol.getD "") with
      | some protocolName => l.filter (fun pool => pool.dexName == protocolName)
      | none => l
    else l) = l.filter (protocolPred query) := by
  unfold protocolPred
  by_cases h : jsTruthy query.protocol
  · simp only [h, if_true]
    cases PROTOCOL_MAPPING (query.protocol.getD "") <;> simp [List.filter_true]
  · simp [h, List.filter_true]

theorem filterPools_eq (pools : List Pool) (query : Query) :
    filterPools pools query =
      (((((pools.filter (networkPred query)).filter (factoryPred query)).filter
          (poolIdPred query)).filter (inputTokenPred query)).filter
          (outputTokenPred query)).filter (protocolPred query) := by
  show (if jsTruthy query.protocol then _ else _) = _
  rw [← network_step query pools, ← factory_step query, ← poolId_step query,
    ← inputToken_step query, ← outputToken_step query, ← protocol_step query]

theorem applyDims_cons (query : Query) (d : FilterDim) (ds : List FilterDim)
    (pools : List Pool) :
    applyDims query (d :: ds) pools = applyDims query ds (pools.filter (dimPred query d)) := rfl

theorem applyDims_eq_filter (query : Query) (ds : List FilterDim) (pools : List Pool) :
    applyDims query ds pools =
      pools.filter (fun p => ds.all (fun d => dimPred query d p)) := by
  induction ds generalizing pools with
  | nil => simp [applyDims, List.filter_true]
  | cons d ds ih =>
    rw [applyDims_cons, ih, List.filter_filter]
    refine List.filter_congr fun p _ => ?_
    simp [List.all_cons, Bool.and_comm]

theorem filterPools_eq_applyDims (pools : List Pool) (query : Query) :
    filterPools pools query = applyDims query allDims pools := by
  rw [filterPools_eq]
  rfl

theorem all_of_perm {ds es : List FilterDim} (f : FilterDim → Bool) (h : ds.Perm es) :
    ds.all f = es.all f := by
  have h2 : (ds.all f = true) ↔ (es.all f = true) := by
    simp only [List.all_eq_true]
    exact ⟨fun ha x hx => ha x (h.mem_iff.mpr hx), fun ha x hx => ha x (h.mem_iff.mp hx)⟩
  cases hd : ds.all f <;> cases he : es.all f <;> simp_all

theorem mem_allDims (d : FilterDim) : d ∈ allDims := by
  cases d <;> simp [allDims]

theorem dimPred_true_of_none (query : Query) (d : FilterDim)
    (h : dimField query d = none) : dimPred query d = fun _ => true := by
  funext p
  cases d <;>
    simp_all [dimField, dimPred, networkPred, factoryPred, poolIdPred,
      inputTokenPred, outputTokenPred, protocolPred, jsTruthy]

theorem decDigitsAux_spec : ∀ (fuel n : Nat) (acc : List Char), n < fuel →
    decDigitsAux fuel n acc = decDigitsAux (n + 1) n [] ++ acc := by
  intro fuel
  induction fuel using Nat.strong_induction_on with
  | _ fuel ih =>
    intro n acc h
    cases fuel with
    | zero => omega
    | succ f =>
      by_cases h10 : n < 10
      · simp [decDigitsAux, h10]
      · have hn0 : 0 < n := by omega
        have hdiv : n / 10 < n := Nat.div_lt_self hn0 (by omega)
        have hf : n / 10 < f := by omega
        simp only [decDigitsAux, if_neg h10]
        rw [ih f (by omega) (n / 10) _ hf,
          ih n (by omega) (n / 10) [digitChar (n % 10)] hdiv]
        simp

theorem decRepr_data (n : Nat) :
    (decRepr n).data =
      if n < 10 then [digitChar n]
      else (decRepr (n / 10)).data ++ [digitChar (n % 10)] := by
  by_cases h10 : n < 10
  · simp [decRepr, decDigitsAux, h10]
  · have hdiv : n / 10 < n := Nat.div_lt_self (by omega) (by omega)
    show decDigitsAux (n + 1) n [] = _
    simp only [if_neg h10, decDigitsAux]
    rw [decDigitsAux_spec n (n / 10) [digitChar (n % 10)] hdiv]
    rfl

theorem digitChar_isDigit (d : Nat) (h : d < 10) : (digitChar d).isDigit = true := by
  interval_cases d <;> decide

theorem digitChar_toNat (d : Nat) (h : d < 10) : (digitChar d).toNat = 48 + d := by
  interval_cases d <;> decide

theorem decRepr_all_digits (n : Nat) : ∀ c ∈ (decRepr n).data, c.isDigit = true := by
  induction n using Nat.strong_induction_on with
  | _ n ih =>
    rw [decRepr_data]
    by_cases h10 : n < 10
    · simp [h10, digitChar_isDigit n h10]
    · simp only [if_neg h10, List.mem_append, List.mem_singleton]
      rintro c (hc | rfl)
      · exact ih (n / 10) (Nat.div_lt_self (by omega) (by omega)) c hc
      · exact digitChar_isDigit _ (Nat.mod_lt _ (by omega))

theorem decRepr_ne_nil (n : Nat) : (decRepr n).data ≠ [] := by
  rw [decRepr_data]
  by_cases h10 : n < 10 <;> simp [h10]

theorem parseDecimal_decRepr (n : Nat) : parseDecimal (decRepr n) = n := by
  induction n using Nat.strong_induction_on with
  | _ n ih =>
    unfold parseDecimal
    rw [decRepr_data]
    by_cases h10 : n < 10
    · rw [if_pos h10]
      simp [digitChar_toNat n h10]
    · have hdiv : n / 10 < n := Nat.div_lt_self (by omega) (by omega)
      have ihv := ih (n / 10) hdiv
      unfold parseDecimal at ihv
      rw [if_neg h10, List.foldl_append, ihv]
      simp only [List.foldl_cons, List.foldl_nil]
      rw [digitChar_toNat (n % 10) (Nat.mod_lt _ (by omega))]
      omega

theorem buildTokenMap_append (ts : List Token) (t : Token) (addr : String) :
    buildTokenMap (ts ++ [t]) addr
      = if addr = t.address then some t else buildTokenMap ts addr := by
  unfold buildTokenMap
  rw [List.foldl_append]
  rfl

theorem inter_of_filters (l : List Pool) (p q : Pool → Bool) :
    listInter (l.filter p) (l.filter q) = (l.filter p).filter q := by
  unfold listInter
  refine List.filter_congr fun x hx => ?_
  have hxl : x ∈ l := (List.mem_filter.mp hx).1
  by_cases hq : q x = true
  · simp [List.mem_filter, hxl, hq]
  · simp [List.mem_filter, hq]

/-- C10: the address→token lookup built by `tokens.forEach(token =>
tokenMap[token.address] = token)` resolves each address to the last token
with that address in the array: later entries overwrite earlier ones, so the
formatted symbol and decimals for a duplicated address come from the final
occurrence. -/
theorem tokenMap_last_occurrence :
    ∀ (tokens : List Token) (addr : String),
      buildTokenMap tokens addr = tokens.reverse.find? (fun t => t.address == addr)
      ∧ buildTokenMap tokens addr
          = (tokens.filter (fun t => t.address == addr)).getLast? := by
  intro tokens addr
  induction tokens using List.reverseRecOn with
  | nil => exact ⟨rfl, rfl⟩
  | append_singleton ts t ih =>
    rw [buildTokenMap_append]
    have hrev : (ts ++ [t]).reverse = t :: ts.reverse := by simp
    constructor
    · rw [hrev, List.find?_cons]
      by_cases h : addr = t.address
      · have hb : (t.address == addr) = true := by simp [h]
        rw [hb, if_pos h]
      · have hb : (t.address == addr) = false := by
          simp only [beq_eq_false_iff_ne]
          exact fun hh => h hh.symm
        rw [hb, if_neg h]
        exact ih.1
    · rw [List.filter_append]
      by_cases h : addr = t.address
      · have hb : (t.address == addr) = true := by simp [h]
        simp only [List.filter_cons, List.filter_nil, hb, if_true]
        rw [List.getLast?_concat, if_pos h]
      · have hb : (t.address == addr) = false := by
          simp only [beq_eq_false_iff_ne]
          exact fun hh => h hh.symm
        simp only [List.filter_cons, List.filter_nil, hb, Bool.false_eq_true, if_false,
          List.append_nil]
        rw [if_neg h]
        exact ih.2

/-- C7: in every formatted pool, `reserve0`, `reserve1` and `fee` are
rendered by `.toString()` as non-empty all-digit decimal strings (the
`FormattedPool` fields are strings, never numbers), and the exact integer
value is preserved: parsing the string back as a decimal numeral returns the
original value, for arbitrary non-negative integers including those beyond
2^53. -/
theorem reserves_rendered_as_decimal_strings :
    ∀ (pool : Pool) (tokens : String → Option Token),
      ((formatPoolResponse pool tokens).reserve0 = decRepr pool.reserve0
        ∧ (formatPoolResponse pool tokens).reserve0.data ≠ []
        ∧ (formatPoolResponse pool tokens).reserve0.data.all Char.isDigit = true
        ∧ parseDecimal (formatPoolResponse pool tokens).reserve0 = pool.reserve0)
      ∧ ((formatPoolResponse pool tokens).reserve1 = decRepr pool.reserve1
        ∧ (formatPoolResponse pool tokens).reserve1.data ≠ []
        ∧ (formatPoolResponse pool tokens).reserve1.data.all Char.isDigit = true
        ∧ parseDecimal (formatPoolResponse pool tokens).reserve1 = pool.reserve1)
      ∧ ((formatPoolResponse pool tokens).fee = decRepr pool.fee
        ∧ (formatPoolResponse pool tokens).fee.data ≠ []
        ∧ (formatPoolResponse pool tokens).fee.data.all Char.isDigit = true
        ∧ parseDecimal (formatPoolResponse pool tokens).fee = pool.fee) := by
  intro pool tokens
  exact
    ⟨⟨rfl, decRepr_ne_nil _, List.all_eq_true.mpr (decRepr_all_digits _),
      parseDecimal_decRepr _⟩,
     ⟨rfl, decRepr_ne_nil _, List.all_eq_true.mpr (decRepr_all_digits _),
      parseDecimal_decRepr _⟩,
     ⟨rfl, decRepr_ne_nil _, List.all_eq_true.mpr (decRepr_all_digits _),
      parseDecimal_decRepr _⟩⟩

/-- C2: for every item sequence and all `page ≥ 1`, `limit ≥ 1`, the
paginator returns the slice `items[(page-1)*limit : (page-1)*limit+limit]`,
its length is `min(limit, max(0, total - (page-1)*limit))` (the inner `max`
being truncated subtraction), the start index `(page-1)*limit` is never
negative, and a start at or beyond the sequence length yields `[]`, not an
error. -/
theorem paginate_slice_spec :
    ∀ {α : Type} (items : List α) (page limit : Int), 1 ≤ page → 1 ≤ limit →
      0 ≤ (page - 1) * limit
      ∧ paginate items page limit
          = (items.drop ((page - 1) * limit).toNat).take limit.toNat
      ∧ (paginate items page limit).length
          = min limit.toNat (items.length - ((page - 1) * limit).toNat)
      ∧ (items.length ≤ ((page - 1) * limit).toNat → paginate items page limit = []) := by
  intro α items page limit hp hl
  have hs : 0 ≤ (page - 1) * limit := mul_nonneg (by omega) (by omega)
  have hmain : paginate items page limit
      = (items.drop ((page - 1) * limit).toNat).take limit.toNat := by
    simp only [paginate, jsSlice]
    set s : Int := (page - 1) * limit with hsdef
    have h1 : ¬ s < 0 := by omega
    have h2 : ¬ s + limit < 0 := by omega
    rw [if_neg h1, if_neg h2]
    by_cases hsl : s ≤ (items.length : Int)
    · rw [min_eq_left hsl]
      rw [List.take_eq_take, List.length_drop]
      omega
    · push_neg at hsl
      rw [min_eq_right (le_of_lt hsl)]
      have hd1 : items.drop ((items.length : Int)).toNat = [] :=
        List.drop_eq_nil_of_le (by omega)
      have hd2 : items.drop s.toNat = [] :=
        List.drop_eq_nil_of_le (by omega)
      rw [hd1, hd2, List.take_nil, List.take_nil]
  refine ⟨hs, hmain, ?_, ?_⟩
  · rw [hmain, List.length_take, List.length_drop]
  · intro hle
    rw [hmain, List.drop_eq_nil_of_le hle, List.take_nil]

/-- Witness for C2: page 2 with limit 3 over five items returns the last
two. -/
theorem paginate_slice_spec_witness :
    (1 : Int) ≤ 2 ∧ (1 : Int) ≤ 3
    ∧ paginate ([10, 20, 30, 40, 50] : List Nat) 2 3 = [40, 50] := by
  refine ⟨by decide, by decide, ?_⟩
  rw [(paginate_slice_spec ([10, 20, 30, 40, 50] : List Nat) 2 3 (by decide) (by decide)).2.1]
  decide

/-- C8: the filter engine is a pure function of the input list (the
embedding returns a value computed by `List.filter` passes; the JS source
copies the array with `[...pools]` and uses only non-mutating `filter`): the
result is a sublist of the input, so relative order is preserved and no
element is invented; every unsupplied filter dimension is a no-op (dropping
it from the applied dimensions leaves the result unchanged); and with no
filter supplied the input comes back unchanged. -/
theorem filterPools_frame :
    ∀ (pools : List Pool) (query : Query),
      (filterPools pools query).Sublist pools
      ∧ (∀ d : FilterDim, dimField query d = none →
          applyDims query (allDims.erase d) pools = filterPools pools query)
      ∧ (query.network = none → query.factory = none → query.pool = none →
          query.input_token = none → query.output_token = none → query.protocol = none →
          filterPools pools query = pools) := by
  intro pools query
  refine ⟨?_, ?_, ?_⟩
  · rw [filterPools_eq_applyDims, applyDims_eq_filter]
    exact List.filter_sublist _
  · intro d hd
    rw [filterPools_eq_applyDims, applyDims_eq_filter, applyDims_eq_filter]
    refine List.filter_congr fun p _ => ?_
    have hperm : allDims.Perm (d :: allDims.erase d) := List.perm_cons_erase (mem_allDims d)
    have h1 : dimPred query d p = true := by rw [dimPred_true_of_none query d hd]
    calc (allDims.erase d).all (fun d' => dimPred query d' p)
        = (d :: allDims.erase d).all (fun d' => dimPred query d' p) := by
          simp [List.all_cons, h1]
      _ = allDims.all (fun d' => dimPred query d' p) := (all_of_perm _ hperm).symm
  · intro h1 h2 h3 h4 h5 h6
    rw [filterPools_eq]
    have e1 : networkPred query = fun _ => true := dimPred_true_of_none query .network h1
    have e2 : factoryPred query = fun _ => true := dimPred_true_of_none query .factory h2
    have e3 : poolIdPred query = fun _ => true := dimPred_true_of_none query .poolId h3
    have e4 : inputTokenPred query = fun _ => true := dimPred_true_of_none query .inputToken h4
    have e5 : outputTokenPred query = fun _ => true :=
      dimPred_true_of_none query .outputToken h5
    have e6 : protocolPred query = fun _ => true := dimPred_true_of_none query .protocol h6
    rw [e1, e2, e3, e4, e5, e6]
    simp [List.filter_true]

/-- Witness for C8: dropping the unsupplied factory dimension leaves the
result unchanged, and the empty query is the identity. -/
theorem filterPools_frame_witness :
    applyDims { network := some "mainnet" } (allDims.erase .factory)
        [⟨some "0xp1", some "0xf1", "Uniswap V3", "Ethereum", "0xt0", "0xt1", 1, 2, 3⟩]
      = filterPools
        [⟨some "0xp1", some "0xf1", "Uniswap V3", "Ethereum", "0xt0", "0xt1", 1, 2, 3⟩]
        { network := some "mainnet" }
    ∧ filterPools
        [⟨some "0xp1", some "0xf1", "Uniswap V3", "Ethereum", "0xt0", "0xt1", 1, 2, 3⟩] {}
      = [⟨some "0xp1", some "0xf1", "Uniswap V3", "Ethereum", "0xt0", "0xt1", 1, 2, 3⟩] :=
  ⟨(filterPools_frame _ { network := some "mainnet" }).2.1 .factory rfl,
   (filterPools_frame _ {}).2.2 rfl rfl rfl rfl rfl rfl⟩

/-- C6: the filter engine is conjunctive across dimensions: filtering with
both `network` and `protocol` supplied equals the membership intersection of
the network-only result with the protocol-only result, and applying the six
filter dimensions in any order (any permutation of the source order) yields
the same result as `filterPools`. -/
theorem filter_conjunctive_order_independent :
    (∀ (pools : List Pool) (n pr : String),
        filterPools pools { network := some n, protocol := some pr }
          = listInter (filterPools pools { network := some n })
              (filterPools pools { protocol := some pr }))
    ∧ (∀ (query : Query) (pools : List Pool) (ds : List FilterDim),
        ds.Perm allDims → applyDims query ds pools = filterPools pools query) := by
  constructor
  · intro pools n pr
    rw [filterPools_eq pools { network := some n, protocol := some pr },
      filterPools_eq pools { network := some n },
      filterPools_eq pools { protocol := some pr }]
    have b2 : factoryPred ({ network := some n, protocol := some pr } : Query)
        = fun _ => true := dimPred_true_of_none _ .factory rfl
    have b3 : poolIdPred ({ network := some n, protocol := some pr } : Query)
        = fun _ => true := dimPred_true_of_none _ .poolId rfl
    have b4 : inputTokenPred ({ network := some n, protocol := some pr } : Query)
        = fun _ => true := dimPred_true_of_none _ .inputToken rfl
    have b5 : outputTokenPred ({ network := some n, protocol := some pr } : Query)
        = fun _ => true := dimPred_true_of_none _ .outputToken rfl
    have n2 : factoryPred ({ network := some n } : Query) = fun _ => true :=
      dimPred_true_of_none _ .factory rfl
    have n3 : poolIdPred ({ network := some n } : Query) = fun _ => true :=
      dimPred_true_of_none _ .poolId rfl
    have n4 : inputTokenPred ({ network := some n } : Query) = fun _ => true :=
      dimPred_true_of_none _ .inputToken rfl
    have n5 : outputTokenPred ({ network := some n } : Query) = fun _ => true :=
      dimPred_true_of_none _ .outputToken rfl
    have n6 : protocolPred ({ network := some n } : Query) = fun _ => true :=
      dimPred_true_of_none _ .protocol rfl
    have p1 : networkPred ({ protocol := some pr } : Query) = fun _ => true :=
      dimPred_true_of_none _ .network rfl
    have p2 : factoryPred ({ protocol := some pr } : Query) = fun _ => true :=
      dimPred_true_of_none _ .factory rfl
    have p3 : poolIdPred ({ protocol := some pr } : Query) = fun _ => true :=
      dimPred_true_of_none _ .poolId rfl
    have p4 : inputTokenPred ({ protocol := some pr } : Query) = fun _ => true :=
      dimPred_true_of_none _ .inputToken rfl
    have p5 : outputTokenPred ({ protocol := some pr } : Query) = fun _ => true :=
      dimPred_true_of_none _ .outputToken rfl
    rw [b2, b3, b4, b5, n2, n3, n4, n5, n6, p1, p2, p3, p4, p5]
    simp only [List.filter_true]
    rw [show networkPred ({ network := some n, protocol := some pr } : Query)
        = networkPred ({ network := some n } : Query) from rfl,
      show protocolPred ({ network := some n, protocol := some pr } : Query)
        = protocolPred ({ protocol := some pr } : Query) from rfl]
    exact (inter_of_filters pools _ _).symm
  · intro query pools ds h
    rw [filterPools_eq_applyDims, applyDims_eq_filter, applyDims_eq_filter]
    exact List.filter_congr fun p _ => all_of_perm _ h

/-- Witness for C6: the six dimensions applied in reverse order give the
same result as the source order on a concrete two-pool dataset. -/
theorem filter_conjunctive_order_independent_witness :
    applyDims ({ network := some "mainnet", protocol := some "uniswap_v3" } : Query)
        [.protocol, .outputToken, .inputToken, .poolId, .factory, .network]
        [⟨some "0xp1", none, "Uniswap V3", "Ethereum", "0xa", "0xb", 1, 1, 1⟩,
          ⟨some "0xp2", none, "QuickSwap", "Polygon", "0xa", "0xb", 1, 1, 1⟩]
      = filterPools
        [⟨some "0xp1", none, "Uniswap V3", "Ethereum", "0xa", "0xb", 1, 1, 1⟩,
          ⟨some "0xp2", none, "QuickSwap", "Polygon", "0xa", "0xb", 1, 1, 1⟩]
        ({ network := some "mainnet", protocol := some "uniswap_v3" } : Query) :=
  filter_conjunctive_order_independent.2 _ _ _ (by decide)

/-- C1 counterexample: a token with `decimals = 0` is resolved by the lookup
(the address is present in the token set), yet the formatter outputs
`decimals = 18` because the JS fallback `tokens[addr]?.decimals || 18`
triggers on the falsy value `0`; so "decimals is 18 exactly when the address
is unresolved" and "a resolved token's decimals of 0 is returned unchanged"
are both false of the code. -/
theorem format_token_zero_decimals_counterexample :
    buildTokenMap [⟨"0xa", "ZRO", 0⟩] "0xa" = some ⟨"0xa", "ZRO", 0⟩
    ∧ (formatPoolResponse ⟨some "0xp", none, "Uniswap V2", "Ethereum", "0xa", "0xb", 1, 1, 100⟩
        (buildTokenMap [⟨"0xa", "ZRO", 0⟩])).token0.decimals = 18
    ∧ (Token.decimals ⟨"0xa", "ZRO", 0⟩ ≠ 18) := by
  exact ⟨by decide, by decide, by decide⟩

/-- C1 (amended): each of `token0`/`token1` expands to
`{ address, symbol, decimals }` with the address passed through and symbol
and decimals resolved via the address-keyed token map; when the address is
unresolved the output is `symbol = "UNKNOWN"`, `decimals = 18`; when it is
resolved, the resolved token's symbol and decimals are returned except that
the fallback also applies to falsy values: an empty symbol becomes
`"UNKNOWN"` and decimals equal to 0 becomes 18. -/
theorem format_token_resolution_amended :
    ∀ (ts : List Token) (pool : Pool),
      (formatPoolResponse pool (buildTokenMap ts)).token0.address = pool.token0
      ∧ (formatPoolResponse pool (buildTokenMap ts)).token1.address = pool.token1
      ∧ (buildTokenMap ts pool.token0 = none →
          (formatPoolResponse pool (buildTokenMap ts)).token0.symbol = "UNKNOWN"
          ∧ (formatPoolResponse pool (buildTokenMap ts)).token0.decimals = 18)
      ∧ (∀ t, buildTokenMap ts pool.token0 = some t →
          (formatPoolResponse pool (buildTokenMap ts)).token0.symbol
            = (if t.symbol = "" then "UNKNOWN" else t.symbol)
          ∧ (formatPoolResponse pool (buildTokenMap ts)).token0.decimals
            = (if t.decimals = 0 then 18 else t.decimals))
      ∧ (buildTokenMap ts pool.token1 = none →
          (formatPoolResponse pool (buildTokenMap ts)).token1.symbol = "UNKNOWN"
          ∧ (formatPoolResponse pool (buildTokenMap ts)).token1.decimals = 18)
      ∧ (∀ t, buildTokenMap ts pool.token1 = some t →
          (formatPoolResponse pool (buildTokenMap ts)).token1.symbol
            = (if t.symbol = "" then "UNKNOWN" else t.symbol)
          ∧ (formatPoolResponse pool (buildTokenMap ts)).token1.decimals
            = (if t.decimals = 0 then 18 else t.decimals)) := by
  intro ts pool
  refine ⟨rfl, rfl, fun h => ?_, fun t h => ?_, fun h => ?_, fun t h => ?_⟩ <;>
    constructor <;> simp [formatPoolResponse, jsStrOr, jsNatOr, h]

/-- Witness for C1 (amended): a resolved token with nonzero decimals is
passed through; an unresolved address gets the placeholder. -/
theorem format_token_resolution_amended_witness :
    (formatPoolResponse ⟨some "0xp", none, "Uniswap V3", "Ethereum", "0xa", "0xz", 5, 6, 7⟩
        (buildTokenMap [⟨"0xa", "TKA", 6⟩])).token0.symbol = "TKA"
    ∧ (formatPoolResponse ⟨some "0xp", none, "Uniswap V3", "Ethereum", "0xa", "0xz", 5, 6, 7⟩
        (buildTokenMap [⟨"0xa", "TKA", 6⟩])).token0.decimals = 6
    ∧ (formatPoolResponse ⟨some "0xp", none, "Uniswap V3", "Ethereum", "0xa", "0xz", 5, 6, 7⟩
        (buildTokenMap [⟨"0xa", "TKA", 6⟩])).token1.symbol = "UNKNOWN"
    ∧ (formatPoolResponse ⟨some "0xp", none, "Uniswap V3", "Ethereum", "0xa", "0xz", 5, 6, 7⟩
        (buildTokenMap [⟨"0xa", "TKA", 6⟩])).token1.decimals = 18 := by
  have h := format_token_resolution_amended [⟨"0xa", "TKA", 6⟩]
    ⟨some "0xp", none, "Uniswap V3", "Ethereum", "0xa", "0xz", 5, 6, 7⟩
  obtain ⟨-, -, -, h4, h5, -⟩ := h
  have ha := h4 ⟨"0xa", "TKA", 6⟩ (by decide)
  have hb := h5 (by decide)
  exact ⟨by simpa using ha.1, by simpa using ha.2, hb.1, hb.2⟩

theorem getPools_ok (query : Query) (dexData : DexData)
    (hp : pageBad query = false) (hl : limitBad query = false)
    (hn : networkBad query = false) (hpr : protocolBad query = false) :
    getPools query dexData = .ok
      { data := (paginate (filterPools dexData.pools query)
            (jsNumOr (pageParamOf query) 1)
            (min (jsNumOr (limitParamOf query) 10) 1000)).map
          (fun pool => formatPoolResponse pool (buildTokenMap dexData.tokens))
        pagination :=
          { page := jsNumOr (pageParamOf query) 1
            limit := min (jsNumOr (limitParamOf query) 10) 1000
            total := (filterPools dexData.pools query).length
            hasMore := decide (jsNumOr (pageParamOf query) 1
                * min (jsNumOr (limitParamOf query) 10) 1000
                < ((filterPools dexData.pools query).length : Int)) } } := by
  simp [getPools, hp, hl, hn, hpr]

/-- C3: every successful response reports `pagination.total` equal to the
size of the filtered pool set before pagination, and `pagination.hasMore` is
true exactly when `page * limit < total`. -/
theorem pagination_total_hasMore :
    ∀ (query : Query) (dexData : DexData) (resp : PoolsResponse),
      getPools query dexData = .ok resp →
      resp.pagination.total = (filterPools dexData.pools query).length
      ∧ (resp.pagination.hasMore = true ↔
          resp.pagination.page * resp.pagination.limit < (resp.pagination.total : Int)) := by
  intro query dexData resp h
  by_cases c1 : pageBad query
  · rw [getPools, if_pos c1] at h
    exact absurd h (by simp)
  by_cases c2 : limitBad query
  · rw [getPools, if_neg (by simp [c1]), if_pos c2] at h
    exact absurd h (by simp)
  by_cases c3 : networkBad query
  · rw [getPools, if_neg (by simp [c1]), if_neg (by simp [c2]), if_pos c3] at h
    exact absurd h (by simp)
  by_cases c4 : protocolBad query
  · rw [getPools, if_neg (by simp [c1]), if_neg (by simp [c2]), if_neg (by simp [c3]),
      if_pos c4] at h
    exact absurd h (by simp)
  rw [getPools_ok query dexData (by simp [c1]) (by simp [c2]) (by simp [c3])
    (by simp [c4])] at h
  injection h with h'
  subst h'
  exact ⟨rfl, by simp⟩

/-- Witness for C3 on the empty dataset and empty query. -/
theorem pagination_total_hasMore_witness :
    (⟨[], ⟨1, 10, 0, false⟩⟩ : PoolsResponse).pagination.total
        = (filterPools (⟨[], []⟩ : DexData).pools {}).length
    ∧ ((⟨[], ⟨1, 10, 0, false⟩⟩ : PoolsResponse).pagination.hasMore = true ↔
        (⟨[], ⟨1, 10, 0, false⟩⟩ : PoolsResponse).pagination.page
            * (⟨[], ⟨1, 10, 0, false⟩⟩ : PoolsResponse).pagination.limit
          < (((⟨[], ⟨1, 10, 0, false⟩⟩ : PoolsResponse).pagination.total : Nat) : Int)) :=
  pagination_total_hasMore {} ⟨[], []⟩ ⟨[], ⟨1, 10, 0, false⟩⟩ (by decide)

/-- C4: a supplied `limit` parsing to an integer above 1000 never triggers
the limit validation error; when the other validations pass, the request
succeeds and the effective limit used for pagination and echoed in
`pagination.limit` is exactly 1000. When `limit` is absent (or empty), the
default effective limit is 10. -/
theorem limit_clamped_to_1000 :
    (∀ (query : Query) (dexData : DexData) (v : Int),
        jsTruthy query.limit = true → jsParseInt (query.limit.getD "") = some v → 1000 < v →
        limitBad query = false
        ∧ (pageBad query = false → networkBad query = false → protocolBad query = false →
            getPools query dexData = .ok
              { data := (paginate (filterPools dexData.pools query)
                    (jsNumOr (pageParamOf query) 1) 1000).map
                  (fun pool => formatPoolResponse pool (buildTokenMap dexData.tokens))
                pagination :=
                  { page := jsNumOr (pageParamOf query) 1
                    limit := 1000
                    total := (filterPools dexData.pools query).length
                    hasMore := decide (jsNumOr (pageParamOf query) 1 * 1000
                        < ((filterPools dexData.pools query).length : Int)) } }))
    ∧ (∀ (query : Query) (dexData : DexData),
        jsTruthy query.limit = false →
        limitBad query = false
        ∧ (pageBad query = false → networkBad query = false → protocolBad query = false →
            ∃ resp, getPools query dexData = .ok resp ∧ resp.pagination.limit = 10)) := by
  constructor
  · intro query dexData v h1 h2 h3
    have hlp : limitParamOf query = some v := by simp [limitParamOf, h1, h2]
    have hlb : limitBad query = false := by
      simp only [limitBad, hlp]
      simp
      omega
    refine ⟨hlb, fun hp hn hpr => ?_⟩
    have hlim : min (jsNumOr (limitParamOf query) 10) 1000 = 1000 := by
      rw [hlp]
      simp only [jsNumOr]
      rw [if_neg (by omega)]
      exact min_eq_right (by omega)
    rw [getPools_ok query dexData hp hlb hn hpr, hlim]
  · intro query dexData h1
    have hlp : limitParamOf query = some 10 := by simp [limitParamOf, h1]
    have hlb : limitBad query = false := by simp [limitBad, hlp]
    refine ⟨hlb, fun hp hn hpr => ?_⟩
    refine ⟨_, getPools_ok query dexData hp hlb hn hpr, ?_⟩
    rw [hlp]
    norm_num [jsNumOr]

/-- Witness for C4: `limit=2000` is clamped to 1000, and an absent limit
defaults to 10, on the empty dataset. -/
theorem limit_clamped_to_1000_witness :
    limitBad ({ limit := some "2000" } : Query) = false
    ∧ getPools { limit := some "2000" } ⟨[], []⟩
        = .ok { data := [], pagination := { page := 1, limit := 1000, total := 0, hasMore := false } }
    ∧ limitBad ({} : Query) = false
    ∧ getPools {} ⟨[], []⟩
        = .ok { data := [], pagination := { page := 1, limit := 10, total := 0, hasMore := false } } := by
  have h := limit_clamped_to_1000.1 { limit := some "2000" } ⟨[], []⟩ 2000
    (by decide) (by decide) (by decide)
  have h2 := limit_clamped_to_1000.2 {} ⟨[], []⟩ (by decide)
  refine ⟨h.1, ?_, h2.1, ?_⟩
  · rw [h.2 (by decide) (by decide) (by decide)]
    decide
  · rw [getPools_ok ({} : Query) ⟨[], []⟩ (by decide) (by decide) (by decide) (by decide)]
    decide

/-- C5: whenever a request fails validation (page unparseable or below 1,
limit unparseable or below 1, supplied network outside the 8-key mapping, or
supplied protocol outside the 3-key mapping), the endpoint answers with a
400 error; the answer is independent of the fetched dataset — validation
short-circuits before the fetch and before any filtering — and in
particular an unrecognized network can never yield a (silently empty) 200
response. -/
theorem validation_short_circuits :
    ∀ (query : Query) (dexData dexData' : DexData),
      validationFails query = true →
      (∃ msg, getPools query dexData = .badRequest msg)
      ∧ getPools query dexData = getPools query dexData'
      ∧ ∀ resp, getPools query dexData ≠ .ok resp := by
  intro query d d' h
  have key : ∀ dd : DexData, ∃ msg, ∀ ee : DexData,
      getPools query ee = .badRequest msg := by
    intro dd
    by_cases c1 : pageBad query
    · exact ⟨pageErrorMsg, fun ee => by rw [getPools, if_pos c1]⟩
    by_cases c2 : limitBad query
    · exact ⟨limitErrorMsg, fun ee => by
        rw [getPools, if_neg (by simp [c1]), if_pos c2]⟩
    by_cases c3 : networkBad query
    · exact ⟨networkErrorMsg, fun ee => by
        rw [getPools, if_neg (by simp [c1]), if_neg (by simp [c2]), if_pos c3]⟩
    have c4 : protocolBad query = true := by
      simp [validationFails, c1, c2, c3] at h
      exact h
    exact ⟨protocolErrorMsg, fun ee => by
      rw [getPools, if_neg (by simp [c1]), if_neg (by simp [c2]), if_neg (by simp [c3]),
        if_pos c4]⟩
  obtain ⟨msg, hmsg⟩ := key d
  refine ⟨⟨msg, hmsg d⟩, (hmsg d).trans (hmsg d').symm, fun resp hr => ?_⟩
  rw [hmsg d] at hr
  exact HandlerResult.noConfusion hr

/-- Witness for C5: an unrecognized network is rejected with a 400
independently of the dataset. -/
theorem validation_short_circuits_witness :
    validationFails { network := some "bogus" } = true
    ∧ (∃ msg, getPools { network := some "bogus" } ⟨[], []⟩ = .badRequest msg)
    ∧ getPools { network := some "bogus" } ⟨[], []⟩
        = getPools { network := some "bogus" }
            ⟨[⟨"0xa", "T", 1⟩], [⟨some "0xp", none, "Uniswap V3", "Ethereum", "0xa", "0xb", 1, 1, 1⟩]⟩ := by
  have h := validation_short_circuits { network := some "bogus" } ⟨[], []⟩
    ⟨[⟨"0xa", "T", 1⟩], [⟨some "0xp", none, "Uniswap V3", "Ethereum", "0xa", "0xb", 1, 1, 1⟩]⟩
    (by decide)
  exact ⟨by decide, h.1, h.2.1⟩

/-- C9: a query parameter supplied as the empty string behaves exactly as
if it were absent: for each of the eight parameters, replacing `""` by an
absent value leaves the endpoint's result unchanged; an empty `page` or
`limit` is not rejected, and the effective page and limit fall back to the
defaults 1 and 10. -/
theorem empty_string_param_as_absent :
    ∀ (query : Query) (dexData : DexData),
      getPools { query with network := some "" } dexData
          = getPools { query with network := none } dexData
      ∧ getPools { query with factory := some "" } dexData
          = getPools { query with factory := none } dexData
      ∧ getPools { query with pool := some "" } dexData
          = getPools { query with pool := none } dexData
      ∧ getPools { query with input_token := some "" } dexData
          = getPools { query with input_token := none } dexData
      ∧ getPools { query with output_token := some "" } dexData
          = getPools { query with output_token := none } dexData
      ∧ getPools { query with protocol := some "" } dexData
          = getPools { query with protocol := none } dexData
      ∧ getPools { query with page := some "" } dexData
          = getPools { query with page := none } dexData
      ∧ getPools { query with limit := some "" } dexData
          = getPools { query with limit := none } dexData
      ∧ pageBad { query with page := some "" } = false
      ∧ limitBad { query with limit := some "" } = false
      ∧ jsNumOr (pageParamOf { query with page := some "" }) 1 = 1
      ∧ min (jsNumOr (limitParamOf { query with limit := some "" }) 10) 1000 = 10 := by
  intro query dexData
  exact ⟨rfl, rfl, rfl, rfl, rfl, rfl, rfl, rfl, rfl, rfl, rfl, rfl⟩

end DexApi
